import Mathlib

/-!
Meeting Summarizer: the fallback summary generator and the summary route.

A shallow embedding of `src/server/routes/summaries.js`, of the upload handler
of `src/server/routes/transcripts.js` and of the recipient list of
`src/client/src/App.js`.

JavaScript strings are sequences of UTF-16 code units, and `length`, `split`,
`trim`, `includes` and `join` all work on code units, so a string is embedded
as the list of its code units.
-/

namespace MeetingSummarizer

/-- A JavaScript string, as the list of its UTF-16 code units. -/
abbrev JSString := List Nat

/-- The code units of a string literal of the source (all literals of the
source are in the Basic Multilingual Plane, one code unit per character). -/
def lit (s : String) : JSString := s.toList.map Char.toNat

/-- The characters matched by `\s` in a regular expression and removed by
`String.prototype.trim`: ECMAScript WhiteSpace and LineTerminator. -/
def isWhiteSpace (c : Nat) : Bool :=
  c == 9 || c == 10 || c == 11 || c == 12 || c == 13 || c == 32 || c == 160 ||
  c == 0x1680 || (0x2000 ≤ c && c ≤ 0x200A) || c == 0x2028 || c == 0x2029 ||
  c == 0x202F || c == 0x205F || c == 0x3000 || c == 0xFEFF

/-- The character class `[.!?]` of the sentence regular expression. -/
def isSentenceEnd (c : Nat) : Bool := c == 46 || c == 33 || c == 63

/-- The loop of `String.prototype.split` for a separator `/[class]+/`:
`cur` is the piece being read and `inRun` tells that the previous code unit
belonged to a separator match (the match is greedy, so the whole run of
class characters is one separator). -/
def splitAux (d : Nat → Bool) : JSString → Bool → JSString → List JSString
  | cur, _, [] => [cur]
  | cur, inRun, c :: cs =>
    if d c then
      if inRun then splitAux d cur true cs else cur :: splitAux d [] true cs
    else splitAux d (cur ++ [c]) false cs

/-- The result of `s.split(/[class]+/)`: the pieces of `s` between the maximal
runs of class characters, a leading or trailing empty piece included; the
empty string gives one empty piece. -/
def split (d : Nat → Bool) (s : JSString) : List JSString := splitAux d [] false s

/-- The result of `String.prototype.trim`. -/
def trim (s : JSString) : JSString := (s.dropWhile isWhiteSpace).rdropWhile isWhiteSpace

/-- The result of `String.prototype.includes`: `pat` occurs in `s`. -/
def includes (s pat : JSString) : Bool := s.tails.any (fun t => pat.isPrefixOf t)

/-- The result of `Array.prototype.join`. -/
def join (sep : JSString) (parts : List JSString) : JSString := sep.intercalate parts

/-- The decimal digits of `n`, most significant first; `fuel` bounds the
number of digits. -/
def digitsAux : Nat → Nat → JSString
  | 0, _ => []
  | fuel + 1, n => if n < 10 then [48 + n] else digitsAux fuel (n / 10) ++ [48 + n % 10]

/-- The text of a natural number inside a template literal. -/
def numToString (n : Nat) : JSString := digitsAux (n + 1) n

/-- The ASCII part of `String.prototype.toLowerCase`: `A`-`Z` become `a`-`z`,
every other code unit is kept. -/
def asciiToLowerCase (s : JSString) : JSString :=
  s.map (fun c => if 65 ≤ c ∧ c ≤ 90 then c + 32 else c)

/-- The array `sentences` of `generateFallbackSummary`:
`transcript.split(/[.!?]+/).filter(s => s.trim().length > 0)`. -/
def sentences (transcript : JSString) : List JSString :=
  (split isSentenceEnd transcript).filter (fun s => decide ((trim s).length > 0))

/-- The number `wordCount` of `generateFallbackSummary`:
`transcript.split(/\s+/).length`. -/
def wordCount (transcript : JSString) : Nat := (split isWhiteSpace transcript).length

/-- The array that `generateFallbackSummary` joins into `keyPoints`:
`sentences.filter(s => s.length > 50).slice(0, 5).map(s => "• " + s.trim())`. -/
def keyPointItems (transcript : JSString) : List JSString :=
  (((sentences transcript).filter (fun s => decide (s.length > 50))).take 5).map
    (fun s => lit "• " ++ trim s)

/-- The string `keyPoints` of `generateFallbackSummary`. -/
def keyPoints (transcript : JSString) : JSString := join (lit "\n") (keyPointItems transcript)

/-- The value of `Math.ceil(wordCount / 200)`. -/
def readingTime (transcript : JSString) : Nat := (wordCount transcript + 199) / 200

/-- The first value of `summary`: the header line quoting the prompt. -/
def header (prompt : JSString) : JSString :=
  lit "**Summary based on your request: \"" ++ prompt ++ lit "\"**\n\n"

/-- The text appended in the bullet branch. -/
def keyPointsSection (transcript : JSString) : JSString :=
  lit "**Key Points:**\n" ++ keyPoints transcript ++ lit "\n\n"

/-- The text appended in the executive branch (three `summary +=`). -/
def executiveSection (transcript : JSString) : JSString :=
  lit "**Executive Summary:**\n" ++
  (lit "This meeting transcript contains " ++ numToString (wordCount transcript) ++
    lit " words across " ++ numToString (sentences transcript).length ++ lit " main points. ") ++
  lit "Key discussion areas include the main topics covered in the conversation.\n\n"

/-- The statistics block (four `summary +=`). -/
def statistics (transcript : JSString) : JSString :=
  lit "**Meeting Statistics:**\n" ++
  (lit "• Total words: " ++ numToString (wordCount transcript) ++ lit "\n") ++
  (lit "• Main discussion points: " ++ numToString (sentences transcript).length ++ lit "\n") ++
  (lit "• Estimated reading time: " ++ numToString (readingTime transcript) ++ lit " minutes\n\n")

/-- The closing note (last `summary +=`). -/
def closingNote : JSString :=
  lit "**Note:** This is a basic summary. For AI-powered summaries, please configure your OpenAI API key in the server environment variables."

/-- The function `generateFallbackSummary(transcript, prompt)`.
`toLowerCase` stands for `String.prototype.toLowerCase`, a built-in of the
language that is taken as a parameter. -/
def generateFallbackSummary (toLowerCase : JSString → JSString)
    (transcript prompt : JSString) : JSString :=
  let summary := header prompt
  let summary :=
    if includes (toLowerCase prompt) (lit "bullet") || includes (toLowerCase prompt) (lit "points") then
      summary ++ keyPointsSection transcript
    else if includes (toLowerCase prompt) (lit "executive") then
      summary ++ executiveSection transcript
    else summary
  let summary := summary ++ statistics transcript
  summary ++ closingNote

/-- The transcript of the end-to-end example. -/
def exampleTranscript : JSString := lit "Alice: Let's ship by Friday. Bob: Agreed."

/-- The prompt of the end-to-end example. -/
def examplePrompt : JSString := lit "Summarize in bullet points"

/-- The claim's wording of the sentences: the fragments between the
separator characters `.`, `!`, `?` that are not blank. -/
def specSentences (transcript : JSString) : List JSString :=
  (transcript.splitOnP isSentenceEnd).filter (fun s => s.any (fun c => !isWhiteSpace c))

/-- The claim's wording of the selection: the first `n` elements that
qualify, in their original order, and only those found when fewer qualify. -/
def firstQualifying (p : JSString → Bool) : Nat → List JSString → List JSString
  | 0, _ => []
  | _ + 1, [] => []
  | n + 1, s :: ss =>
    if p s then s :: firstQualifying p n ss else firstQualifying p (n + 1) ss

/-- The bullet lines as the claim words them: the trimmed texts of the first 5
sentences whose trimmed length exceeds 50. -/
def specKeyPointItems (transcript : JSString) : List JSString :=
  (firstQualifying (fun s => decide ((trim s).length > 50)) 5 (specSentences transcript)).map
    (fun s => lit "• " ++ trim s)

/-- A transcript whose second sentence has 50 characters after trimming and 51
with the blank that follows the full stop. -/
def paddedTranscript : JSString :=
  lit "Done. The quarterly budget review is moved to next month."

/-- The claim's wording of the word count: the number of maximal runs of
non-whitespace characters; `inToken` tells that the previous character
belonged to such a run. -/
def countTokensAux : Bool → JSString → Nat
  | _, [] => 0
  | inToken, c :: cs =>
    if isWhiteSpace c then countTokensAux false cs
    else (if inToken then 0 else 1) + countTokensAux true cs

/-- The number of whitespace-delimited tokens of a transcript. -/
def tokenCount (transcript : JSString) : Nat := countTokensAux false transcript

/-- The lines of a text: its pieces between line feeds. -/
def lines (s : JSString) : List JSString := s.splitOn 10

/-- A transcript that ends with a line feed, as an uploaded text file does. -/
def newlineTranscript : JSString := lit "hello world\n"

/-- A transcript of one sentence written on six lines. -/
def sixLineTranscript : JSString :=
  lit "aaaaaaaaaa\nbbbbbbbbbb\ncccccccccc\ndddddddddd\neeeeeeeeee\nffffffffff"

/-- A transcript of 450 words separated by single blanks. -/
def words450 : JSString := (List.replicate 449 (lit "w ")).flatten ++ lit "w"

/-- A lower-casing function maps every ASCII text occurring in a string to
its lower-cased text in the result, as `String.prototype.toLowerCase` does. -/
def LowersAscii (toLowerCase : JSString → JSString) : Prop :=
  ∀ pat s : JSString, (∀ c ∈ pat, c < 128) → pat <:+: s →
    asciiToLowerCase pat <:+: toLowerCase s

/-- The constant text that follows the quoted prompt in an output without
section: every literal of the statistics block and the closing note. -/
def fixedTail : JSString :=
  lit "**\n\n" ++ lit "**Meeting Statistics:**\n" ++ lit "• Total words: " ++ lit "\n" ++
  lit "• Main discussion points: " ++ lit "• Estimated reading time: " ++
  lit " minutes\n\n" ++ closingNote

/-- A prompt that asks for no particular format. -/
def plainPrompt : JSString := lit "Summarize this meeting"

/-- A prompt that asks for an executive summary in bullet points. -/
def bothPrompt : JSString := lit "Executive summary in bullet points"

/-! The summary route. -/

/-- A document of the Summary collection (`models/Summary.js`). -/
structure Summary where
  id : Nat
  transcriptId : Option Nat
  originalTranscript : JSString
  customPrompt : JSString
  aiSummary : JSString
  editedSummary : Option JSString
  createdAt : Nat
  updatedAt : Nat
  deriving DecidableEq, Repr

/-- The `message` of a choice; `content` is `none` when absent or `null`. -/
structure Message where
  content : Option JSString
  deriving DecidableEq, Repr

/-- A choice of a chat completion; `message` is `none` when absent. -/
structure Choice where
  message : Option Message
  deriving DecidableEq, Repr

/-- The object the inference call resolves to; `choices` is `none` when the
property is absent. -/
structure ChatCompletion where
  choices : Option (List Choice)
  deriving DecidableEq, Repr

/-- The outcome of `await groq.chat.completions.create(...)`. -/
inductive GroqResult where
  | rejected : GroqResult
  | resolved : ChatCompletion → GroqResult
  deriving DecidableEq, Repr

/-- The evaluation of `chatCompletion.choices[0].message.content`: `none` when
it throws a TypeError (a property read on `undefined`), else the value read,
itself `none` when the content is absent or `null`. -/
def readContent (c : ChatCompletion) : Option (Option JSString) :=
  match c.choices with
  | none => none
  | some [] => none
  | some (choice :: _) =>
    match choice.message with
    | none => none
    | some m => some m.content

/-- What the route needs from outside: the credential `process.env.GROQ_API_KEY`,
the outcome of the inference call when it is made, the clock and the
identifier the store gives to a new document. -/
structure Env where
  apiKey : Option JSString
  groq : GroqResult
  now : Nat
  newId : Nat
  deriving DecidableEq, Repr

/-- The body of `POST /api/summary`; a field is `none` when absent. -/
structure SummaryRequest where
  transcriptId : Option Nat
  transcriptContent : Option JSString
  customPrompt : Option JSString
  deriving DecidableEq, Repr

/-- The response: the status and the `summary` field of the body, if any. -/
structure Response where
  status : Nat
  summary : Option JSString
  deriving DecidableEq, Repr

/-- The observable result of a request: the response, the Summary collection
afterwards, and how many times the inference call and the fallback ran. -/
structure Outcome where
  response : Response
  store : List Summary
  inferenceCalls : Nat
  fallbackRuns : Nat
  deriving DecidableEq, Repr

/-- The truthiness of a string-valued field: absent and `""` are falsy. -/
def truthy : Option JSString → Bool
  | none => false
  | some s => !s.isEmpty

/-- The value of `aiSummary` after the inference step, with the number of
inference calls and of fallback runs. -/
def computeAiSummary (toLowerCase : JSString → JSString) (env : Env)
    (transcriptContent customPrompt : JSString) : Option JSString × Nat × Nat :=
  if truthy env.apiKey then
    match env.groq with
    | GroqResult.rejected =>
      (some (generateFallbackSummary toLowerCase transcriptContent customPrompt), 1, 1)
    | GroqResult.resolved c =>
      match readContent c with
      | none => (some (generateFallbackSummary toLowerCase transcriptContent customPrompt), 1, 1)
      | some content => (content, 1, 0)
  else (some (generateFallbackSummary toLowerCase transcriptContent customPrompt), 0, 1)

/-- The handler of `POST /api/summary`. The document is saved when its required
paths hold a non-empty string (the `required: true` of the schema), else
`save` throws and the outer `catch` answers 500. -/
def postSummary (toLowerCase : JSString → JSString) (env : Env) (store : List Summary)
    (req : SummaryRequest) : Outcome :=
  if !truthy req.transcriptContent || !truthy req.customPrompt then
    { response := { status := 400, summary := none }, store := store,
      inferenceCalls := 0, fallbackRuns := 0 }
  else
    let transcriptContent := req.transcriptContent.getD []
    let customPrompt := req.customPrompt.getD []
    let r := computeAiSummary toLowerCase env transcriptContent customPrompt
    if truthy r.1 then
      let aiSummary := r.1.getD []
      { response := { status := 200, summary := some aiSummary },
        store := store ++ [{ id := env.newId, transcriptId := req.transcriptId,
                             originalTranscript := transcriptContent,
                             customPrompt := customPrompt, aiSummary := aiSummary,
                             editedSummary := none, createdAt := env.now,
                             updatedAt := env.now }],
        inferenceCalls := r.2.1, fallbackRuns := r.2.2 }
    else
      { response := { status := 500, summary := none }, store := store,
        inferenceCalls := r.2.1, fallbackRuns := r.2.2 }

/-- An environment without credential. -/
def noKeyEnv : Env := { apiKey := none, groq := GroqResult.rejected, now := 0, newId := 1 }

/-- An environment with a credential where the inference call resolves to a
completion whose message has no content. -/
def nullContentEnv : Env :=
  { apiKey := some (lit "gsk_key"),
    groq := GroqResult.resolved { choices := some [{ message := some { content := none } }] },
    now := 0, newId := 1 }

/-- An environment with a credential where the inference call resolves to a
completion whose message content is the empty string. -/
def emptyContentEnv : Env :=
  { apiKey := some (lit "gsk_key"),
    groq := GroqResult.resolved { choices := some [{ message := some { content := some [] } }] },
    now := 0, newId := 1 }

/-- A request whose transcript is three blanks. -/
def blankRequest : SummaryRequest :=
  { transcriptId := none, transcriptContent := some (lit "   "),
    customPrompt := some (lit "Summarize") }

/-- A request with a transcript and a prompt. -/
def plainRequest : SummaryRequest :=
  { transcriptId := none, transcriptContent := some (lit "Hello team. We ship on Friday."),
    customPrompt := some (lit "Summarize") }

/-! The upload route (`src/server/routes/transcripts.js`). -/

/-- A document of the Transcript collection (`models/Transcript.js`). -/
structure Transcript where
  id : Nat
  filename : JSString
  content : JSString
  uploadedAt : Nat
  fileSize : Nat
  deriving DecidableEq, Repr

/-- The object `req.file` that the upload middleware sets for a file it has
accepted: `text` is `buffer.toString('utf8')`. -/
structure UploadedFile where
  text : JSString
  originalname : JSString
  size : Nat
  deriving DecidableEq, Repr

/-- What the handler of `POST /api/upload` reads from the request: `req.file`,
`req.body.content` and `req.body.filename`, each `none` when absent. -/
structure UploadRequest where
  file : Option UploadedFile
  content : Option JSString
  filename : Option JSString
  deriving DecidableEq, Repr

/-- The clock and the identifier the store gives to a new document. -/
structure StoreEnv where
  now : Nat
  newId : Nat
  deriving DecidableEq, Repr

/-- The observable result of an upload: the status of the response and the
Transcript collection afterwards. -/
structure UploadOutcome where
  status : Nat
  store : List Transcript
  deriving DecidableEq, Repr

/-- The value of `Buffer.byteLength(s, 'utf8')`; `prevHigh` tells that the
previous code unit was a high surrogate (already counted for 3 bytes, the low
surrogate that completes the pair adds the fourth). -/
def utf8ByteLengthAux : Bool → JSString → Nat
  | _, [] => 0
  | prevHigh, c :: cs =>
    if prevHigh && (0xDC00 ≤ c && c < 0xE000) then 1 + utf8ByteLengthAux false cs
    else (if c < 0x80 then 1 else if c < 0x800 then 2 else 3) +
      utf8ByteLengthAux (0xD800 ≤ c && c < 0xDC00) cs

/-- The handler of `POST /api/upload`. The document is saved when `filename`
is a non-empty string (the `required: true` of the schema), else `save`
throws and the `catch` answers 500. -/
def uploadTranscript (env : StoreEnv) (store : List Transcript) (req : UploadRequest) :
    UploadOutcome :=
  let read : Option (JSString × JSString × Nat) :=
    match req.file with
    | some f => some (f.text, f.originalname, f.size)
    | none =>
      if truthy req.content then
        let transcriptContent := req.content.getD []
        some (transcriptContent,
          if truthy req.filename then req.filename.getD []
          else lit "pasted-text-" ++ numToString env.now ++ lit ".txt",
          utf8ByteLengthAux false transcriptContent)
      else none
  match read with
  | none => { status := 400, store := store }
  | some (transcriptContent, filename, fileSize) =>
    if trim transcriptContent = [] then { status := 400, store := store }
    else if filename = [] then { status := 500, store := store }
    else
      { status := 200,
        store := store ++ [{ id := env.newId, filename := filename,
                             content := transcriptContent, uploadedAt := env.now,
                             fileSize := fileSize }] }

/-- An upload of pasted text made of blanks and a line feed. -/
def blankUpload : UploadRequest :=
  { file := none, content := some (lit "  \n"), filename := none }

/-- An upload of a text file made of a tab and a line feed. -/
def blankFileUpload : UploadRequest :=
  { file := some { text := lit "\t\n", originalname := lit "notes.txt", size := 2 },
    content := none, filename := none }

/-! The summary edit route (`PUT /api/summary/:id`). -/

/-- The document `Summary.findById(id)` finds: the first one with this id. -/
def findById (store : List Summary) (id : Nat) : Option Summary :=
  store.find? (fun s => decide (s.id = id))

/-- The write of `Summary.findByIdAndUpdate(id, update)`: the first document
with this id is replaced by its update, every other document is kept. -/
def updateFirst (id : Nat) (f : Summary → Summary) : List Summary → List Summary
  | [] => []
  | s :: ss => if s.id = id then f s :: ss else s :: updateFirst id f ss

/-- What the handler of `PUT /api/summary/:id` reads from the request:
`req.params.id`, `none` when it is not an identifier of the store (the cast
throws), and `req.body.editedSummary`, `none` when absent. -/
structure EditRequest where
  id : Option Nat
  editedSummary : Option JSString
  deriving DecidableEq, Repr

/-- The observable result of an edit: the status, the document returned when
there is one, and the Summary collection afterwards. -/
structure EditOutcome where
  status : Nat
  summary : Option Summary
  store : List Summary
  deriving DecidableEq, Repr

/-- The handler of `PUT /api/summary/:id` at time `now` (`new Date()`). -/
def updateSummary (now : Nat) (store : List Summary) (req : EditRequest) : EditOutcome :=
  if !truthy req.editedSummary then { status := 400, summary := none, store := store }
  else
    let editedSummary := req.editedSummary.getD []
    match req.id with
    | none => { status := 500, summary := none, store := store }
    | some id =>
      let store' := updateFirst id
        (fun s => { s with editedSummary := some editedSummary, updatedAt := now }) store
      match findById store' id with
      | none => { status := 404, summary := none, store := store' }
      | some summary => { status := 200, summary := some summary, store := store' }

/-- A store of two summaries. -/
def twoSummaries : List Summary :=
  [{ id := 1, transcriptId := none, originalTranscript := lit "Hello team.",
     customPrompt := lit "Summarize", aiSummary := lit "A greeting.",
     editedSummary := none, createdAt := 10, updatedAt := 10 },
   { id := 2, transcriptId := some 7, originalTranscript := lit "We ship on Friday.",
     customPrompt := lit "Summarize", aiSummary := lit "Shipping on Friday.",
     editedSummary := none, createdAt := 20, updatedAt := 20 }]

/-! The recipient list of the client (`src/client/src/App.js`). -/

/-- Regular expressions over code units, with character classes. -/
inductive Regex where
  | empty : Regex
  | eps : Regex
  | cls : (Nat → Bool) → Regex
  | alt : Regex → Regex → Regex
  | seq : Regex → Regex → Regex
  | star : Regex → Regex

/-- Whether the expression matches the empty string. -/
def Regex.nullable : Regex → Bool
  | Regex.empty => false
  | Regex.eps => true
  | Regex.cls _ => false
  | Regex.alt r s => r.nullable || s.nullable
  | Regex.seq r s => r.nullable && s.nullable
  | Regex.star _ => true

/-- The expression for what may follow the code unit `c`. -/
def Regex.deriv : Regex → Nat → Regex
  | Regex.empty, _ => Regex.empty
  | Regex.eps, _ => Regex.empty
  | Regex.cls p, c => if p c then Regex.eps else Regex.empty
  | Regex.alt r s, c => Regex.alt (r.deriv c) (s.deriv c)
  | Regex.seq r s, c =>
    if r.nullable then Regex.alt (Regex.seq (r.deriv c) s) (s.deriv c)
    else Regex.seq (r.deriv c) s
  | Regex.star r, c => Regex.seq (r.deriv c) (Regex.star r)

/-- The result of `/^r$/.test(s)`: the whole string matches `r`. -/
def Regex.test : Regex → JSString → Bool
  | r, [] => r.nullable
  | r, c :: cs => Regex.test (r.deriv c) cs

/-- The expression `r+`. -/
def Regex.plus (r : Regex) : Regex := Regex.seq r (Regex.star r)

/-- The expression for the single code unit `c`. -/
def Regex.chr (c : Nat) : Regex := Regex.cls (fun x => x == c)

/-- The strings an expression matches. -/
def Regex.Matches : Regex → JSString → Prop
  | Regex.empty, _ => False
  | Regex.eps, s => s = []
  | Regex.cls p, s => ∃ c, s = [c] ∧ p c = true
  | Regex.alt r t, s => Regex.Matches r s ∨ Regex.Matches t s
  | Regex.seq r t, s => ∃ a b, s = a ++ b ∧ Regex.Matches r a ∧ Regex.Matches t b
  | Regex.star r, s => ∃ parts : List JSString, s = parts.flatten ∧ ∀ y ∈ parts, Regex.Matches r y

/-- The character class `[^\s@]`. -/
def notSpaceAt (c : Nat) : Bool := !isWhiteSpace c && c != 64

/-- The constant `emailRegex` of `addRecipient`: `/^[^\s@]+@[^\s@]+\.[^\s@]+$/`. -/
def emailRegex : Regex :=
  Regex.seq (Regex.plus (Regex.cls notSpaceAt))
    (Regex.seq (Regex.chr 64)
      (Regex.seq (Regex.plus (Regex.cls notSpaceAt))
        (Regex.seq (Regex.chr 46) (Regex.plus (Regex.cls notSpaceAt)))))

/-- The claim's wording of the shape `local@domain.tld`: a non-empty run of
characters that are neither whitespace nor `@`, then `@`, then such a run,
then `.`, then such a run. -/
def HasShape (s : JSString) : Prop :=
  ∃ user domain tld : JSString,
    user ≠ [] ∧ (∀ x ∈ user, isWhiteSpace x = false ∧ x ≠ 64) ∧
    domain ≠ [] ∧ (∀ x ∈ domain, isWhiteSpace x = false ∧ x ≠ 64) ∧
    tld ≠ [] ∧ (∀ x ∈ tld, isWhiteSpace x = false ∧ x ≠ 64) ∧
    s = user ++ [64] ++ domain ++ [46] ++ tld

/-- The state of the component that the recipient operations read and write. -/
structure UIState where
  recipients : List JSString
  emailInput : JSString
  error : JSString
  deriving DecidableEq, Repr

/-- The state after `useState([])`, `useState('')`, `useState('')`. -/
def initialState : UIState := { recipients := [], emailInput := [], error := [] }

/-- The function `addRecipient`. -/
def addRecipient (st : UIState) : UIState :=
  let email := trim st.emailInput
  if email = [] then st
  else if !emailRegex.test email then
    { st with error := lit "Please enter a valid email address" }
  else if decide (email ∈ st.recipients) then { st with error := lit "Email already added" }
  else { recipients := st.recipients ++ [email], emailInput := [], error := [] }

/-- The function `removeRecipient`. -/
def removeRecipient (st : UIState) (email : JSString) : UIState :=
  { st with recipients := st.recipients.filter (fun r => decide (r ≠ email)) }

/-- The operations of the user interface that touch the recipient list or the
address field: typing in the field, the Add button, the remove button of an
address, and the end of a successful `sendEmail`, which empties both. -/
inductive UIAction where
  | setEmailInput : JSString → UIAction
  | addRecipient : UIAction
  | removeRecipient : JSString → UIAction
  | emailSent : UIAction
  deriving DecidableEq, Repr

/-- The state after one operation. -/
def step (st : UIState) : UIAction → UIState
  | UIAction.setEmailInput value => { st with emailInput := value }
  | UIAction.addRecipient => addRecipient st
  | UIAction.removeRecipient email => removeRecipient st email
  | UIAction.emailSent => { st with recipients := [], emailInput := [] }

/-- The state after a sequence of operations. -/
def run (actions : List UIAction) (st : UIState) : UIState := actions.foldl step st

/-- A session: an address typed with blanks around it and added, the same
address typed again, a malformed address, and the removal of an address. -/
def sampleSession : List UIAction :=
  [UIAction.setEmailInput (lit " ann@example.com "), UIAction.addRecipient,
   UIAction.setEmailInput (lit "ann@example.com"), UIAction.addRecipient,
   UIAction.setEmailInput (lit "bob@example"), UIAction.addRecipient,
   UIAction.setEmailInput (lit "bob@example.org"), UIAction.addRecipient,
   UIAction.removeRecipient (lit "carol@example.org")]

/-! Lemmas on the string primitives and on the route. -/

theorem splitAux_cur (d : Nat → Bool) (s : JSString) :
    ∀ (cur : JSString) (r : Bool),
      splitAux d cur r s = (splitAux d [] r s).modifyHead (fun x => cur ++ x) := by
  induction s with
  | nil => intro cur r; simp [splitAux]
  | cons c cs ih =>
    intro cur r
    by_cases hd : d c = true
    · cases r
      · simp [splitAux, hd]
      · simp only [splitAux, hd, if_true]
        exact ih cur true
    · simp only [splitAux, hd, if_false, Bool.false_eq_true]
      rw [ih (cur ++ [c]) false, ih ([] ++ [c]) false, List.modifyHead_modifyHead]
      congr 1
      funext x
      simp

theorem filter_splitAux (d : Nat → Bool) (nb : JSString → Bool) (hnb : nb [] = false)
    (s : JSString) :
    ∀ (cur : JSString) (r : Bool), (r = true → cur = []) →
      (splitAux d cur r s).filter nb =
        ((s.splitOnP d).modifyHead (fun x => cur ++ x)).filter nb := by
  induction s with
  | nil => intro cur r _; simp [splitAux]
  | cons c cs ih =>
    intro cur r hr
    by_cases hd : d c = true
    · cases r
      · have h := ih [] true (fun _ => rfl)
        simp only [splitAux, hd, if_true, Bool.false_eq_true, if_false, List.splitOnP_cons,
          List.modifyHead_cons, List.append_nil, List.filter_cons, h]
        have e : (fun x : JSString => [] ++ x) = id := by funext x; simp
        rw [e, List.modifyHead_id, id_eq]
      · have hc : cur = [] := hr rfl
        subst hc
        have h := ih [] true (fun _ => rfl)
        have e : (fun x : JSString => [] ++ x) = id := by funext x; simp
        rw [e, List.modifyHead_id, id_eq] at h
        simp only [splitAux, hd, if_true, List.splitOnP_cons, List.modifyHead_cons,
          List.append_nil, List.filter_cons, hnb, h]
        simp
    · have h := ih (cur ++ [c]) false (fun h => by cases h)
      simp only [splitAux, hd, if_false, Bool.false_eq_true, List.splitOnP_cons, h,
        List.modifyHead_modifyHead]
      congr 2
      funext x
      simp

theorem trim_eq_nil_iff (s : JSString) : trim s = [] ↔ ∀ c ∈ s, isWhiteSpace c = true := by
  unfold trim
  rw [List.rdropWhile_eq_nil_iff]
  constructor
  · intro h
    have hnil : s.dropWhile isWhiteSpace = [] := by
      by_contra hne
      have hh := List.head_dropWhile_not isWhiteSpace s hne
      rw [h _ (List.head_mem hne)] at hh
      cases hh
    exact List.dropWhile_eq_nil_iff.mp hnil
  · intro h c hc
    exact h c ((List.dropWhile_sublist isWhiteSpace).subset hc)

theorem nonblank_iff (s : JSString) :
    decide ((trim s).length > 0) = s.any (fun c => !isWhiteSpace c) := by
  rw [Bool.eq_iff_iff]
  simp only [decide_eq_true_eq, List.any_eq_true, Bool.not_eq_true', gt_iff_lt,
    List.length_pos]
  rw [Ne, trim_eq_nil_iff]
  push_neg
  constructor
  · rintro ⟨c, hc, h⟩
    exact ⟨c, hc, by simpa using h⟩
  · rintro ⟨c, hc, h⟩
    exact ⟨c, hc, by simp [h]⟩

theorem sentences_eq_specSentences (transcript : JSString) :
    sentences transcript = specSentences transcript := by
  unfold sentences specSentences split
  have hfun : (fun s : JSString => decide ((trim s).length > 0)) =
      (fun s : JSString => s.any (fun c => !isWhiteSpace c)) := funext nonblank_iff
  rw [hfun, filter_splitAux isSentenceEnd _ (by simp) transcript [] false (fun h => by cases h)]
  have e : (fun x : JSString => [] ++ x) = id := by funext x; simp
  rw [e, List.modifyHead_id, id_eq]

theorem take_filter_eq_firstQualifying (p : JSString → Bool) (l : List JSString) :
    ∀ n, (l.filter p).take n = firstQualifying p n l := by
  induction l with
  | nil => intro n; cases n <;> simp [firstQualifying]
  | cons s ss ih =>
    intro n
    cases n with
    | zero => simp [firstQualifying]
    | succ n =>
      by_cases hp : p s = true
      · simp [firstQualifying, hp, ih n]
      · simp [firstQualifying, hp, ih (n + 1)]

theorem generateFallbackSummary_bullet (toLowerCase : JSString → JSString)
    (transcript prompt : JSString)
    (h : includes (toLowerCase prompt) (lit "bullet") = true ∨
      includes (toLowerCase prompt) (lit "points") = true) :
    generateFallbackSummary toLowerCase transcript prompt =
      header prompt ++ keyPointsSection transcript ++ statistics transcript ++ closingNote := by
  have h2 : (includes (toLowerCase prompt) (lit "bullet") ||
      includes (toLowerCase prompt) (lit "points")) = true := by
    rcases h with h | h <;> simp [h]
  simp only [generateFallbackSummary, h2, if_true]

theorem includes_iff (s pat : JSString) : includes s pat = true ↔ pat <:+: s := by
  unfold includes
  rw [List.any_eq_true, List.infix_iff_prefix_suffix]
  constructor
  · rintro ⟨t, ht, hp⟩
    exact ⟨t, List.isPrefixOf_iff_prefix.mp hp, (List.mem_tails _ _).mp ht⟩
  · rintro ⟨t, hp, ht⟩
    exact ⟨t, (List.mem_tails _ _).mpr ht, List.isPrefixOf_iff_prefix.mpr hp⟩

theorem length_splitAux (d : Nat → Bool) (cur : JSString) (r : Bool) (s : JSString) :
    (splitAux d cur r s).length = (splitAux d [] r s).length := by
  rw [splitAux_cur d s cur r, List.length_modifyHead]

theorem tokens_vs_pieces (cs : JSString) :
    ((splitAux isWhiteSpace [] true cs).length ≤ countTokensAux false cs + 1 ∧
        countTokensAux false cs ≤ (splitAux isWhiteSpace [] true cs).length) ∧
      (countTokensAux true cs + 1 ≤ (splitAux isWhiteSpace [] false cs).length ∧
        (splitAux isWhiteSpace [] false cs).length ≤ countTokensAux true cs + 2) := by
  induction cs with
  | nil => simp [splitAux, countTokensAux]
  | cons c cs ih =>
    by_cases hw : isWhiteSpace c = true
    · simp only [splitAux, countTokensAux, hw, if_true, Bool.false_eq_true, if_false,
        List.length_cons]
      omega
    · simp only [splitAux, countTokensAux, hw, if_false, Bool.false_eq_true, if_true]
      rw [length_splitAux isWhiteSpace ([] ++ [c]) false cs]
      omega

theorem tokenCount_le_wordCount (transcript : JSString) :
    tokenCount transcript ≤ wordCount transcript ∧
      wordCount transcript ≤ tokenCount transcript + 2 := by
  unfold tokenCount wordCount split
  cases transcript with
  | nil => simp [splitAux, countTokensAux]
  | cons c cs =>
    have h := tokens_vs_pieces cs
    by_cases hw : isWhiteSpace c = true
    · simp only [splitAux, countTokensAux, hw, if_true, Bool.false_eq_true, if_false,
        List.length_cons]
      omega
    · simp only [splitAux, countTokensAux, hw, if_false, Bool.false_eq_true]
      rw [length_splitAux isWhiteSpace ([] ++ [c]) false cs]
      omega

theorem readingTime_eq_ceil (transcript : JSString) :
    readingTime transcript = ⌈(wordCount transcript : ℚ) / 200⌉₊ := by
  unfold readingTime
  apply le_antisymm
  · rw [Nat.div_le_iff_le_mul_add_pred (by norm_num)]
    have h : (wordCount transcript : ℚ) / 200 ≤ (⌈(wordCount transcript : ℚ) / 200⌉₊ : ℚ) :=
      Nat.le_ceil _
    rw [div_le_iff₀ (by norm_num)] at h
    have h2 : wordCount transcript ≤ ⌈(wordCount transcript : ℚ) / 200⌉₊ * 200 := by
      exact_mod_cast h
    omega
  · rw [Nat.ceil_le, div_le_iff₀ (by norm_num)]
    have h2 : wordCount transcript ≤ (wordCount transcript + 199) / 200 * 200 := by omega
    exact_mod_cast h2

theorem infix_of_infix_append_cons (pat a b : JSString) (q : Nat) (hq : q ∉ pat)
    (h : pat <:+: a ++ q :: b) : pat <:+: a ∨ pat <:+: b := by
  obtain ⟨s, t, hst⟩ := h
  rcases List.append_eq_append_iff.mp hst with ⟨a', ha, _⟩ | ⟨c', hc, hqb⟩
  · exact Or.inl ⟨s, a', ha.symm⟩
  · cases c' with
    | nil => exact Or.inl ⟨s, [], by simpa using hc⟩
    | cons x c'' =>
      simp only [List.cons_append, List.cons.injEq] at hqb
      obtain ⟨hx, hb⟩ := hqb
      subst hx
      rcases List.append_eq_append_iff.mp hc with ⟨a', _, hp⟩ | ⟨c3, hs, hc3⟩
      · exact absurd (by rw [hp]; simp) hq
      · cases c3 with
        | nil =>
          simp only [List.nil_append] at hc3
          exact absurd (by rw [← hc3]; simp) hq
        | cons y c4 =>
          simp only [List.cons_append, List.cons.injEq] at hc3
          exact Or.inr ⟨c4, t, by rw [hb, hc3.2, List.append_assoc]⟩

theorem digitsAux_digit (fuel : Nat) : ∀ n, ∀ c ∈ digitsAux fuel n, 48 ≤ c ∧ c ≤ 57 := by
  induction fuel with
  | zero => intro n c hc; simp [digitsAux] at hc
  | succ k ih =>
    intro n c hc
    by_cases hn : n < 10
    · simp only [digitsAux, hn, if_true, List.mem_singleton] at hc
      omega
    · simp only [digitsAux, hn, if_false, List.mem_append, List.mem_singleton] at hc
      rcases hc with hc | hc
      · exact ih _ c hc
      · omega

theorem numToString_digit (n c : Nat) (hc : c ∈ numToString n) : 48 ≤ c ∧ c ≤ 57 :=
  digitsAux_digit (n + 1) n c hc

theorem not_mem_tail (c : Nat) (transcript : JSString) (hd : ¬ (48 ≤ c ∧ c ≤ 57))
    (hl : c ∉ fixedTail) : c ∉ lit "**\n\n" ++ (statistics transcript ++ closingNote) := by
  have hn : ∀ n, c ∉ numToString n := fun n hm => hd (numToString_digit n c hm)
  have h1 := hn (wordCount transcript)
  have h2 := hn (sentences transcript).length
  have h3 := hn (readingTime transcript)
  simp only [fixedTail, List.mem_append, not_or] at hl
  simp only [statistics, List.mem_append, not_or]
  tauto

theorem not_infix_plain_output (pat transcript prompt : JSString) (c : Nat)
    (hc : c ∈ pat) (hq : 34 ∉ pat) (hd : ¬ (48 ≤ c ∧ c ≤ 57)) (hl : c ∉ fixedTail)
    (hh : c ∉ lit "**Summary based on your request: ")
    (hp : ¬ pat <:+: prompt) :
    ¬ pat <:+: header prompt ++ statistics transcript ++ closingNote := by
  intro h
  have e : header prompt ++ statistics transcript ++ closingNote =
      lit "**Summary based on your request: " ++
        34 :: (prompt ++ 34 :: (lit "**\n\n" ++ (statistics transcript ++ closingNote))) := by
    have e1 : lit "**Summary based on your request: \"" =
        lit "**Summary based on your request: " ++ [34] := by decide
    have e2 : lit "\"**\n\n" = 34 :: lit "**\n\n" := by decide
    simp only [header, e1, e2, List.append_assoc, List.cons_append, List.nil_append]
  rw [e] at h
  rcases infix_of_infix_append_cons _ _ _ 34 hq h with h1 | h1
  · exact hh (h1.subset hc)
  · rcases infix_of_infix_append_cons _ _ _ 34 hq h1 with h2 | h2
    · exact hp h2
    · exact not_mem_tail c transcript hd hl (h2.subset hc)

theorem asciiToLowerCase_lowersAscii : LowersAscii asciiToLowerCase := by
  intro pat s _ h
  exact h.map _

theorem generateFallbackSummary_plain (toLowerCase : JSString → JSString)
    (transcript prompt : JSString)
    (hb : includes (toLowerCase prompt) (lit "bullet") = false)
    (hp : includes (toLowerCase prompt) (lit "points") = false)
    (he : includes (toLowerCase prompt) (lit "executive") = false) :
    generateFallbackSummary toLowerCase transcript prompt =
      header prompt ++ statistics transcript ++ closingNote := by
  simp [generateFallbackSummary, hb, hp, he]

theorem generateFallbackSummary_ne_nil (toLowerCase : JSString → JSString)
    (transcript prompt : JSString) :
    generateFallbackSummary toLowerCase transcript prompt ≠ [] := by
  have hh : ∃ rest, header prompt = 42 :: rest := by
    have e : lit "**Summary based on your request: \"" =
        42 :: lit "*Summary based on your request: \"" := by decide
    exact ⟨lit "*Summary based on your request: \"" ++ prompt ++ lit "\"**\n\n", by
      simp only [header, e, List.cons_append]⟩
  obtain ⟨rest, hr⟩ := hh
  simp only [generateFallbackSummary, hr]
  split_ifs <;> simp

theorem postSummary_rejects_empty (toLowerCase : JSString → JSString) (env : Env)
    (store : List Summary) (req : SummaryRequest)
    (h : req.transcriptContent = none ∨ req.transcriptContent = some [] ∨
      req.customPrompt = none ∨ req.customPrompt = some []) :
    postSummary toLowerCase env store req =
      { response := { status := 400, summary := none }, store := store,
        inferenceCalls := 0, fallbackRuns := 0 } := by
  have h2 : (!truthy req.transcriptContent || !truthy req.customPrompt) = true := by
    rcases h with h | h | h | h <;> simp [h, truthy]
  simp only [postSummary, h2, if_true]

theorem postSummary_falls_back (toLowerCase : JSString → JSString) (env : Env)
    (store : List Summary) (req : SummaryRequest) (transcriptContent customPrompt : JSString)
    (htc : req.transcriptContent = some transcriptContent)
    (hcp : req.customPrompt = some customPrompt)
    (ht : transcriptContent ≠ []) (hc : customPrompt ≠ [])
    (hf : truthy env.apiKey = false ∨ env.groq = GroqResult.rejected ∨
      ∃ c, env.groq = GroqResult.resolved c ∧ readContent c = none) :
    postSummary toLowerCase env store req =
      { response :=
          { status := 200,
            summary := some (generateFallbackSummary toLowerCase transcriptContent customPrompt) },
        store := store ++
          [{ id := env.newId, transcriptId := req.transcriptId,
             originalTranscript := transcriptContent, customPrompt := customPrompt,
             aiSummary := generateFallbackSummary toLowerCase transcriptContent customPrompt,
             editedSummary := none, createdAt := env.now, updatedAt := env.now }],
        inferenceCalls := if truthy env.apiKey then 1 else 0, fallbackRuns := 1 } := by
  have hg := generateFallbackSummary_ne_nil toLowerCase transcriptContent customPrompt
  have h2 : (!truthy req.transcriptContent || !truthy req.customPrompt) = false := by
    simp [htc, hcp, truthy, ht, hc]
  have hr : computeAiSummary toLowerCase env transcriptContent customPrompt =
      (some (generateFallbackSummary toLowerCase transcriptContent customPrompt),
        (if truthy env.apiKey then 1 else 0), 1) := by
    unfold computeAiSummary
    by_cases hk : truthy env.apiKey = true
    · simp only [hk, if_true]
      rcases hf with hf | hf | ⟨c, hf, hrc⟩
      · rw [hk] at hf
        cases hf
      · rw [hf]
      · rw [hf]
        simp only [hrc]
    · simp only [hk, if_false, Bool.false_eq_true]
  simp only [postSummary, h2, htc, hcp, Option.getD_some, hr, truthy, Bool.false_eq_true,
    if_false]
  simp [hg, ht, hc]

theorem findById_decompose (store : List Summary) (id : Nat) (r : Summary)
    (h : findById store id = some r) :
    r.id = id ∧ ∃ pre post, store = pre ++ r :: post ∧ ∀ x ∈ pre, x.id ≠ id := by
  unfold findById at h
  rw [List.find?_eq_some] at h
  obtain ⟨hr, pre, post, hs, hpre⟩ := h
  refine ⟨by simpa using hr, pre, post, hs, ?_⟩
  intro x hx
  simpa using hpre x hx

theorem updateFirst_append (id : Nat) (f : Summary → Summary) (r : Summary)
    (post : List Summary) (hr : r.id = id) :
    ∀ pre : List Summary, (∀ x ∈ pre, x.id ≠ id) →
      updateFirst id f (pre ++ r :: post) = pre ++ f r :: post := by
  intro pre
  induction pre with
  | nil => intro _; simp [updateFirst, hr]
  | cons x xs ih =>
    intro h
    have hx : x.id ≠ id := h x (List.mem_cons_self _ _)
    rw [List.cons_append, updateFirst, if_neg hx,
      ih (fun y hy => h y (List.mem_cons_of_mem _ hy)), List.cons_append]

theorem findById_append (id : Nat) (r : Summary) (post : List Summary) (hr : r.id = id) :
    ∀ pre : List Summary, (∀ x ∈ pre, x.id ≠ id) →
      findById (pre ++ r :: post) id = some r := by
  intro pre
  induction pre with
  | nil => intro _; simp [findById, hr]
  | cons x xs ih =>
    intro h
    have hx : x.id ≠ id := h x (List.mem_cons_self _ _)
    have ih2 := ih (fun y hy => h y (List.mem_cons_of_mem _ hy))
    unfold findById at ih2 ⊢
    simp only [List.cons_append, List.find?_cons, hx, decide_False]
    exact ih2

theorem updateSummary_found (now : Nat) (pre post : List Summary) (r : Summary) (id : Nat)
    (text : JSString) (hne : text ≠ []) (hr : r.id = id) (hpre : ∀ x ∈ pre, x.id ≠ id) :
    updateSummary now (pre ++ r :: post) { id := some id, editedSummary := some text } =
      { status := 200,
        summary := some { r with editedSummary := some text, updatedAt := now },
        store := pre ++ { r with editedSummary := some text, updatedAt := now } :: post } := by
  have ht : (!truthy (some text)) = false := by simp [truthy, hne]
  simp only [updateSummary, ht, Bool.false_eq_true, if_false, Option.getD_some]
  rw [updateFirst_append id _ r post hr pre hpre,
    findById_append id { r with editedSummary := some text, updatedAt := now } post hr pre hpre]

theorem Regex.nullable_iff (r : Regex) : r.nullable = true ↔ r.Matches [] := by
  induction r with
  | empty => simp [Regex.nullable, Regex.Matches]
  | eps => simp [Regex.nullable, Regex.Matches]
  | cls p => simp [Regex.nullable, Regex.Matches]
  | alt r t ihr iht => simp [Regex.nullable, Regex.Matches, ihr, iht]
  | seq r t ihr iht =>
    simp only [Regex.nullable, Regex.Matches, Bool.and_eq_true, ihr, iht]
    constructor
    · rintro ⟨h1, h2⟩
      exact ⟨[], [], rfl, h1, h2⟩
    · rintro ⟨a, b, hab, h1, h2⟩
      have ha : a = [] := (List.append_eq_nil.mp hab.symm).1
      have hb : b = [] := (List.append_eq_nil.mp hab.symm).2
      subst ha hb
      exact ⟨h1, h2⟩
  | star r _ =>
    simp only [Regex.nullable, Regex.Matches, true_iff]
    exact ⟨[], rfl, by simp⟩

theorem Regex.matches_star_cons (r : Regex) (c : Nat) (s : JSString) :
    (Regex.star r).Matches (c :: s) ↔
      ∃ a b, s = a ++ b ∧ r.Matches (c :: a) ∧ (Regex.star r).Matches b := by
  simp only [Regex.Matches]
  constructor
  · rintro ⟨parts, hparts, hall⟩
    induction parts with
    | nil => simp at hparts
    | cons y ys ih =>
      cases y with
      | nil =>
        exact ih (by simpa using hparts) (fun z hz => hall z (List.mem_cons_of_mem _ hz))
      | cons d a =>
        simp only [List.flatten_cons, List.cons_append, List.cons.injEq] at hparts
        obtain ⟨hc, hs⟩ := hparts
        subst hc
        exact ⟨a, ys.flatten, hs, hall _ (List.mem_cons_self _ _), ys, rfl,
          fun z hz => hall z (List.mem_cons_of_mem _ hz)⟩
  · rintro ⟨a, b, hs, ha, parts, hb, hall⟩
    refine ⟨(c :: a) :: parts, by simp [hs, hb], ?_⟩
    intro z hz
    rcases List.mem_cons.mp hz with h | h
    · rw [h]
      exact ha
    · exact hall z h

theorem Regex.deriv_iff (c : Nat) (r : Regex) :
    ∀ s : JSString, (r.deriv c).Matches s ↔ r.Matches (c :: s) := by
  induction r with
  | empty => intro s; simp [Regex.deriv, Regex.Matches]
  | eps => intro s; simp [Regex.deriv, Regex.Matches]
  | cls p =>
    intro s
    by_cases hp : p c = true
    · simp only [Regex.deriv, hp, if_true, Regex.Matches]
      constructor
      · intro hs
        exact ⟨c, by rw [hs], hp⟩
      · rintro ⟨d, hd, _⟩
        simp only [List.cons.injEq] at hd
        exact hd.2
    · simp only [Regex.deriv, hp, if_false, Regex.Matches, false_iff, Bool.false_eq_true]
      rintro ⟨d, hd, hpd⟩
      simp only [List.cons.injEq] at hd
      rw [← hd.1] at hpd
      exact hp hpd
  | alt r t ihr iht => intro s; simp only [Regex.deriv, Regex.Matches, ihr s, iht s]
  | seq r t ihr iht =>
    intro s
    have key : (Regex.seq r t).Matches (c :: s) ↔
        (∃ a b, s = a ++ b ∧ r.Matches (c :: a) ∧ t.Matches b) ∨
          (r.Matches [] ∧ t.Matches (c :: s)) := by
      simp only [Regex.Matches]
      constructor
      · rintro ⟨a, b, hab, ha, hb⟩
        cases a with
        | nil =>
          simp only [List.nil_append] at hab
          rw [← hab] at hb
          exact Or.inr ⟨ha, hb⟩
        | cons d a =>
          simp only [List.cons_append, List.cons.injEq] at hab
          obtain ⟨hd, hs⟩ := hab
          subst hd
          exact Or.inl ⟨a, b, hs, ha, hb⟩
      · rintro (⟨a, b, hs, ha, hb⟩ | ⟨ha, hb⟩)
        · exact ⟨c :: a, b, by simp [hs], ha, hb⟩
        · exact ⟨[], c :: s, rfl, ha, hb⟩
    rw [key]
    by_cases hn : r.nullable = true
    · simp only [Regex.deriv, hn, if_true, Regex.Matches, ihr, iht s]
      have hm := (Regex.nullable_iff r).mp hn
      constructor
      · rintro (h | h)
        · exact Or.inl h
        · exact Or.inr ⟨hm, h⟩
      · rintro (h | ⟨_, h⟩)
        · exact Or.inl h
        · exact Or.inr h
    · simp only [Regex.deriv, hn, if_false, Regex.Matches, ihr, Bool.false_eq_true]
      constructor
      · intro h
        exact Or.inl h
      · rintro (h | ⟨hm, _⟩)
        · exact h
        · exact absurd ((Regex.nullable_iff r).mpr hm) hn
  | star r ihr =>
    intro s
    rw [Regex.matches_star_cons]
    simp only [Regex.deriv]
    constructor
    · rintro ⟨a, b, hs, ha, hb⟩
      exact ⟨a, b, hs, (ihr a).mp ha, hb⟩
    · rintro ⟨a, b, hs, ha, hb⟩
      exact ⟨a, b, hs, (ihr a).mpr ha, hb⟩

theorem Regex.test_iff (s : JSString) : ∀ r : Regex, r.test s = true ↔ r.Matches s := by
  induction s with
  | nil => intro r; simp only [Regex.test, Regex.nullable_iff]
  | cons c cs ih => intro r; simp only [Regex.test, ih, Regex.deriv_iff]

theorem Regex.matches_star_cls (p : Nat → Bool) (a : JSString) :
    (Regex.star (Regex.cls p)).Matches a ↔ ∀ x ∈ a, p x = true := by
  simp only [Regex.Matches]
  constructor
  · rintro ⟨parts, hparts, hall⟩ x hx
    rw [hparts, List.mem_flatten] at hx
    obtain ⟨y, hy, hxy⟩ := hx
    obtain ⟨d, hd, hpd⟩ := hall y hy
    rw [hd, List.mem_singleton] at hxy
    rw [hxy]
    exact hpd
  · intro h
    induction a with
    | nil => exact ⟨[], rfl, by simp⟩
    | cons x xs ih =>
      obtain ⟨parts, hparts, hall⟩ := ih (fun y hy => h y (List.mem_cons_of_mem _ hy))
      refine ⟨[x] :: parts, by simp [hparts], ?_⟩
      intro z hz
      rcases List.mem_cons.mp hz with hz | hz
      · exact ⟨x, hz, h x (List.mem_cons_self _ _)⟩
      · exact hall z hz

theorem Regex.matches_plus_cls (p : Nat → Bool) (a : JSString) :
    (Regex.plus (Regex.cls p)).Matches a ↔ a ≠ [] ∧ ∀ x ∈ a, p x = true := by
  have hstar := Regex.matches_star_cls p
  unfold Regex.plus
  constructor
  · intro h
    obtain ⟨u, v, huv, ⟨d, hd, hpd⟩, hv⟩ := h
    have hv2 := (hstar v).mp hv
    subst hd
    subst huv
    refine ⟨by simp, ?_⟩
    intro x hx
    rcases List.mem_cons.mp hx with hx | hx
    · rw [hx]
      exact hpd
    · exact hv2 x hx
  · rintro ⟨hne, hall⟩
    cases a with
    | nil => exact absurd rfl hne
    | cons x xs =>
      exact ⟨[x], xs, rfl, ⟨x, rfl, hall x (List.mem_cons_self _ _)⟩,
        (hstar xs).mpr (fun y hy => hall y (List.mem_cons_of_mem _ hy))⟩

theorem Regex.matches_chr (c : Nat) (s : JSString) : (Regex.chr c).Matches s ↔ s = [c] := by
  unfold Regex.chr
  simp only [Regex.Matches]
  constructor
  · rintro ⟨d, hd, hdc⟩
    rw [hd, beq_iff_eq.mp hdc]
  · intro h
    exact ⟨c, h, by simp⟩

theorem notSpaceAt_iff (x : Nat) : notSpaceAt x = true ↔ isWhiteSpace x = false ∧ x ≠ 64 := by
  simp [notSpaceAt]

theorem emailRegex_test_iff (s : JSString) : emailRegex.test s = true ↔ HasShape s := by
  rw [Regex.test_iff]
  have hplus : ∀ a : JSString, (Regex.plus (Regex.cls notSpaceAt)).Matches a ↔
      a ≠ [] ∧ ∀ x ∈ a, isWhiteSpace x = false ∧ x ≠ 64 := by
    intro a
    rw [Regex.matches_plus_cls]
    constructor
    · rintro ⟨h1, h2⟩
      exact ⟨h1, fun x hx => (notSpaceAt_iff x).mp (h2 x hx)⟩
    · rintro ⟨h1, h2⟩
      exact ⟨h1, fun x hx => (notSpaceAt_iff x).mpr (h2 x hx)⟩
  unfold emailRegex HasShape
  constructor
  · intro h
    obtain ⟨user, b1, hs, huser, a2, b2, hb1, hat, domain, b3, hb2, hdomain, a4, tld, hb3, hdot,
      htld⟩ := h
    rw [Regex.matches_chr] at hat hdot
    rw [hplus] at huser hdomain htld
    subst hat hdot hb3 hb2 hb1
    exact ⟨user, domain, tld, huser.1, huser.2, hdomain.1, hdomain.2, htld.1, htld.2, by
      rw [hs]; simp only [List.append_assoc]⟩
  · rintro ⟨user, domain, tld, hu1, hu2, hd1, hd2, ht1, ht2, hs⟩
    exact ⟨user, [64] ++ (domain ++ ([46] ++ tld)), by rw [hs]; simp only [List.append_assoc],
      (hplus user).mpr ⟨hu1, hu2⟩, [64], domain ++ ([46] ++ tld), rfl,
      (Regex.matches_chr 64 _).mpr rfl, domain, [46] ++ tld, rfl,
      (hplus domain).mpr ⟨hd1, hd2⟩, [46], tld, rfl, (Regex.matches_chr 46 _).mpr rfl,
      (hplus tld).mpr ⟨ht1, ht2⟩⟩

theorem addRecipient_cases (st : UIState) :
    (addRecipient st).recipients = st.recipients ∨
      (emailRegex.test (trim st.emailInput) = true ∧ trim st.emailInput ∉ st.recipients ∧
        (addRecipient st).recipients = st.recipients ++ [trim st.emailInput]) := by
  unfold addRecipient
  by_cases h1 : trim st.emailInput = []
  · simp [h1]
  · by_cases h2 : emailRegex.test (trim st.emailInput) = true
    · by_cases h3 : trim st.emailInput ∈ st.recipients
      · simp [h1, h2, h3]
      · simp [h1, h2, h3]
    · simp [h1, h2]

theorem step_preserves (st : UIState) (a : UIAction)
    (hshape : ∀ e ∈ st.recipients, emailRegex.test e = true) (hnodup : st.recipients.Nodup) :
    (∀ e ∈ (step st a).recipients, emailRegex.test e = true) ∧ (step st a).recipients.Nodup := by
  cases a with
  | setEmailInput value => exact ⟨hshape, hnodup⟩
  | addRecipient =>
    simp only [step]
    rcases addRecipient_cases st with h | ⟨htest, hnew, h⟩
    · rw [h]
      exact ⟨hshape, hnodup⟩
    · rw [h]
      refine ⟨?_, ?_⟩
      · intro e he
        rcases List.mem_append.mp he with he | he
        · exact hshape e he
        · rw [List.mem_singleton.mp he]
          exact htest
      · rw [List.nodup_append]
        refine ⟨hnodup, List.nodup_singleton _, ?_⟩
        intro x hx hy
        rw [List.mem_singleton.mp hy] at hx
        exact hnew hx
  | removeRecipient email =>
    simp only [step, removeRecipient]
    exact ⟨fun e he => hshape e (List.mem_filter.mp he).1, hnodup.filter _⟩
  | emailSent =>
    simp only [step]
    exact ⟨by simp, List.nodup_nil⟩

theorem run_preserves (actions : List UIAction) :
    ∀ st : UIState, (∀ e ∈ st.recipients, emailRegex.test e = true) → st.recipients.Nodup →
      (∀ e ∈ (run actions st).recipients, emailRegex.test e = true) ∧
        (run actions st).recipients.Nodup := by
  induction actions with
  | nil => intro st h1 h2; exact ⟨h1, h2⟩
  | cons a rest ih =>
    intro st h1 h2
    have h := step_preserves st a h1 h2
    exact ih (step st a) h.1 h.2

/-! The claims. -/

/-- C1, as the code has it: for a prompt whose lower-cased text contains
"bullet" or "points", the output is the header, the Key Points heading, the
bullet lines joined by line feeds, a blank line, the statistics and the note,
and the bullet lines are, in original order, the trimmed texts of the first 5
sentences whose length before trimming exceeds 50 (only those found when fewer
qualify), the sentences being the non-blank fragments between the separator
characters. -/
theorem keyPoints_first_five_long_sentences (toLowerCase : JSString → JSString)
    (transcript prompt : JSString)
    (h : includes (toLowerCase prompt) (lit "bullet") = true ∨
      includes (toLowerCase prompt) (lit "points") = true) :
    generateFallbackSummary toLowerCase transcript prompt =
        header prompt ++
          (lit "**Key Points:**\n" ++ join (lit "\n") (keyPointItems transcript) ++ lit "\n\n") ++
          statistics transcript ++ closingNote ∧
      keyPointItems transcript =
        (firstQualifying (fun s => decide (s.length > 50)) 5 (specSentences transcript)).map
          (fun s => lit "• " ++ trim s) := by
  refine ⟨generateFallbackSummary_bullet toLowerCase transcript prompt h, ?_⟩
  unfold keyPointItems
  rw [take_filter_eq_firstQualifying, sentences_eq_specSentences]

set_option maxRecDepth 100000 in
/-- Witness of C1 at the padded transcript and the example prompt. -/
theorem keyPoints_first_five_long_sentences_witness :
    (includes (asciiToLowerCase examplePrompt) (lit "bullet") = true ∨
        includes (asciiToLowerCase examplePrompt) (lit "points") = true) ∧
      (generateFallbackSummary asciiToLowerCase paddedTranscript examplePrompt =
          header examplePrompt ++
            (lit "**Key Points:**\n" ++ join (lit "\n") (keyPointItems paddedTranscript) ++
              lit "\n\n") ++
            statistics paddedTranscript ++ closingNote ∧
        keyPointItems paddedTranscript =
          (firstQualifying (fun s => decide (s.length > 50)) 5
            (specSentences paddedTranscript)).map (fun s => lit "• " ++ trim s)) :=
  ⟨Or.inl (by decide),
    keyPoints_first_five_long_sentences asciiToLowerCase paddedTranscript examplePrompt
      (Or.inl (by decide))⟩

set_option maxRecDepth 100000 in
/-- Counterexample to C1 as stated: the second sentence of the padded
transcript has 50 characters once trimmed, so the claim selects nothing, and
the code, which measures it with its leading blank (51), emits it. -/
theorem keyPoints_not_by_trimmed_length :
    includes (asciiToLowerCase examplePrompt) (lit "bullet") = true ∧
      keyPointItems paddedTranscript =
        [lit "• The quarterly budget review is moved to next month"] ∧
      specKeyPointItems paddedTranscript = [] ∧
      generateFallbackSummary asciiToLowerCase paddedTranscript examplePrompt =
        lit "**Summary based on your request: \"Summarize in bullet points\"**\n\n**Key Points:**\n• The quarterly budget review is moved to next month\n\n**Meeting Statistics:**\n• Total words: 10\n• Main discussion points: 2\n• Estimated reading time: 1 minutes\n\n**Note:** This is a basic summary. For AI-powered summaries, please configure your OpenAI API key in the server environment variables." := by
  refine ⟨by decide, by decide, by decide, by decide⟩

/-- C2: for a prompt whose lower-cased text contains neither "bullet",
"points" nor "executive", the output is exactly the header line quoting the
prompt, the Meeting Statistics block and the closing note, and neither the
Key Points heading nor the Executive Summary heading occurs anywhere in it. -/
theorem plain_prompt_header_and_statistics_only (toLowerCase : JSString → JSString)
    (hlow : LowersAscii toLowerCase) (transcript prompt : JSString)
    (hb : includes (toLowerCase prompt) (lit "bullet") = false)
    (hp : includes (toLowerCase prompt) (lit "points") = false)
    (he : includes (toLowerCase prompt) (lit "executive") = false) :
    generateFallbackSummary toLowerCase transcript prompt =
        header prompt ++ statistics transcript ++ closingNote ∧
      ¬ lit "**Key Points:**" <:+: generateFallbackSummary toLowerCase transcript prompt ∧
      ¬ lit "**Executive Summary:**" <:+:
        generateFallbackSummary toLowerCase transcript prompt := by
  have hout := generateFallbackSummary_plain toLowerCase transcript prompt hb hp he
  refine ⟨hout, ?_, ?_⟩
  · rw [hout]
    apply not_infix_plain_output _ transcript prompt 75 (by decide) (by decide) (by decide)
      (by decide) (by decide)
    intro h
    have h1 : lit "Points" <:+: prompt :=
      List.IsInfix.trans ⟨lit "**Key ", lit ":**", by decide⟩ h
    have h2 := hlow (lit "Points") prompt (by decide) h1
    have h3 : asciiToLowerCase (lit "Points") = lit "points" := by decide
    rw [h3, ← includes_iff, hp] at h2
    cases h2
  · rw [hout]
    apply not_infix_plain_output _ transcript prompt 120 (by decide) (by decide) (by decide)
      (by decide) (by decide)
    intro h
    have h1 : lit "Executive" <:+: prompt :=
      List.IsInfix.trans ⟨lit "**", lit " Summary:**", by decide⟩ h
    have h2 := hlow (lit "Executive") prompt (by decide) h1
    have h3 : asciiToLowerCase (lit "Executive") = lit "executive" := by decide
    rw [h3, ← includes_iff, he] at h2
    cases h2

set_option maxRecDepth 100000 in
/-- Witness of C2 at the example transcript and a prompt without keyword. -/
theorem plain_prompt_header_and_statistics_only_witness :
    generateFallbackSummary asciiToLowerCase exampleTranscript plainPrompt =
        header plainPrompt ++ statistics exampleTranscript ++ closingNote ∧
      ¬ lit "**Key Points:**" <:+:
        generateFallbackSummary asciiToLowerCase exampleTranscript plainPrompt ∧
      ¬ lit "**Executive Summary:**" <:+:
        generateFallbackSummary asciiToLowerCase exampleTranscript plainPrompt :=
  plain_prompt_header_and_statistics_only asciiToLowerCase asciiToLowerCase_lowersAscii
    exampleTranscript plainPrompt (by decide) (by decide) (by decide)

set_option maxRecDepth 100000 in
/-- C3, the code at a transcript that ends with a line feed: the two words of
"hello world\n" are reported as 3, since `split` returns a last empty piece
after the final whitespace; the empty transcript is reported as 1 word where
it has no token. -/
theorem wordCount_counts_empty_pieces :
    wordCount newlineTranscript = 3 ∧ tokenCount newlineTranscript = 2 ∧
      wordCount [] = 1 ∧ tokenCount [] = 0 ∧
      generateFallbackSummary asciiToLowerCase newlineTranscript plainPrompt =
        lit "**Summary based on your request: \"Summarize this meeting\"**\n\n**Meeting Statistics:**\n• Total words: 3\n• Main discussion points: 1\n• Estimated reading time: 1 minutes\n\n**Note:** This is a basic summary. For AI-powered summaries, please configure your OpenAI API key in the server environment variables." := by
  refine ⟨by decide, by decide, by decide, by decide, by decide⟩

set_option maxRecDepth 100000 in
/-- C4, the code at a transcript of three blanks: the guard tests only that the
two fields are present and not the empty string, so the request is answered
200, the fallback runs on the blank transcript and a Summary is persisted. -/
theorem blank_transcript_is_summarised :
    trim (lit "   ") = [] ∧
      postSummary asciiToLowerCase noKeyEnv [] blankRequest =
        { response :=
            { status := 200,
              summary := some (generateFallbackSummary asciiToLowerCase (lit "   ")
                (lit "Summarize")) },
          store :=
            [{ id := 1, transcriptId := none, originalTranscript := lit "   ",
               customPrompt := lit "Summarize",
               aiSummary := generateFallbackSummary asciiToLowerCase (lit "   ")
                 (lit "Summarize"),
               editedSummary := none, createdAt := 0, updatedAt := 0 }],
          inferenceCalls := 0, fallbackRuns := 1 } := by
  refine ⟨by decide, by decide⟩

set_option maxRecDepth 100000 in
/-- C5, the code at a completion whose message content is absent or empty:
nothing is thrown inside the inner `try`, the fallback does not run, the
document fails the `required` check of `aiSummary`, and the caller gets 500
with nothing persisted. -/
theorem missing_content_answers_500 :
    postSummary asciiToLowerCase nullContentEnv [] plainRequest =
        { response := { status := 500, summary := none }, store := [],
          inferenceCalls := 1, fallbackRuns := 0 } ∧
      postSummary asciiToLowerCase emptyContentEnv [] plainRequest =
        { response := { status := 500, summary := none }, store := [],
          inferenceCalls := 1, fallbackRuns := 0 } := by
  refine ⟨by decide, by decide⟩

/-- C6, as the code has it: for a prompt whose lower-cased text contains
"bullet", the text between the Key Points heading and the statistics is
`keyPoints` and a blank line, `keyPoints` is at most 5 bullet items joined by
line feeds, each item is the bullet mark followed by the trimmed text of one
sentence, and when no trimmed sentence contains a line feed the lines of
`keyPoints` are exactly these items (one empty line when there is none). -/
theorem keyPoints_at_most_five_items (toLowerCase : JSString → JSString)
    (transcript prompt : JSString)
    (h : includes (toLowerCase prompt) (lit "bullet") = true) :
    generateFallbackSummary toLowerCase transcript prompt =
        header prompt ++ (lit "**Key Points:**\n" ++ keyPoints transcript ++ lit "\n\n") ++
          statistics transcript ++ closingNote ∧
      keyPoints transcript = join [10] (keyPointItems transcript) ∧
      (keyPointItems transcript).length ≤ 5 ∧
      (∀ b ∈ keyPointItems transcript, ∃ s ∈ sentences transcript, b = lit "• " ++ trim s) ∧
      ((∀ s ∈ sentences transcript, 10 ∉ trim s) →
        lines (keyPoints transcript) =
          if keyPointItems transcript = [] then [[]] else keyPointItems transcript) := by
  refine ⟨generateFallbackSummary_bullet toLowerCase transcript prompt (Or.inl h), rfl, ?_, ?_, ?_⟩
  · simp only [keyPointItems, List.length_map, List.length_take]
    omega
  · intro b hb
    simp only [keyPointItems, List.mem_map] at hb
    obtain ⟨s, hs, rfl⟩ := hb
    exact ⟨s, (List.mem_filter.mp (List.mem_of_mem_take hs)).1, rfl⟩
  · intro hno
    by_cases he : keyPointItems transcript = []
    · simp only [he, if_true]
      unfold lines keyPoints join
      rw [he]
      rfl
    · simp only [he, if_false]
      unfold lines keyPoints join
      have hl : lit "\n" = [10] := by decide
      rw [hl]
      refine List.splitOn_intercalate _ 10 ?_ he
      intro b hb hmem
      simp only [keyPointItems, List.mem_map] at hb
      obtain ⟨s, hs, rfl⟩ := hb
      rcases List.mem_append.mp hmem with h1 | h1
      · revert h1
        decide
      · exact hno s (List.mem_filter.mp (List.mem_of_mem_take hs)).1 h1

set_option maxRecDepth 100000 in
/-- Witness of C6 at the padded transcript and the example prompt. -/
theorem keyPoints_at_most_five_items_witness :
    includes (asciiToLowerCase examplePrompt) (lit "bullet") = true ∧
      lines (keyPoints paddedTranscript) =
        [lit "• The quarterly budget review is moved to next month"] :=
  ⟨by decide,
    ((keyPoints_at_most_five_items asciiToLowerCase paddedTranscript examplePrompt
      (by decide)).2.2.2.2 (by decide)).trans (by decide)⟩

set_option maxRecDepth 100000 in
/-- Counterexample to C6 as stated: a transcript of one sentence written on six
lines gives a Key Points section of six lines, of which only the first is a
bullet line. -/
theorem keyPoints_six_lines :
    includes (asciiToLowerCase examplePrompt) (lit "bullet") = true ∧
      generateFallbackSummary asciiToLowerCase sixLineTranscript examplePrompt =
        header examplePrompt ++
          (lit "**Key Points:**\n" ++ keyPoints sixLineTranscript ++ lit "\n\n") ++
          statistics sixLineTranscript ++ closingNote ∧
      lines (keyPoints sixLineTranscript) =
        [lit "• aaaaaaaaaa", lit "bbbbbbbbbb", lit "cccccccccc", lit "dddddddddd",
          lit "eeeeeeeeee", lit "ffffffffff"] ∧
      ¬ (lines (keyPoints sixLineTranscript)).length ≤ 5 := by
  refine ⟨by decide, by decide, by decide, by decide⟩

/-- C7: for a prompt whose lower-cased text contains "executive" together with
"bullet" or "points", the output is the bullet format (header, Key Points
section, statistics, note): the Key Points heading follows the header, the
Executive Summary heading does not, and the output is not the executive
format. -/
theorem bullet_wins_over_executive (toLowerCase : JSString → JSString)
    (transcript prompt : JSString)
    (_he : includes (toLowerCase prompt) (lit "executive") = true)
    (hb : includes (toLowerCase prompt) (lit "bullet") = true ∨
      includes (toLowerCase prompt) (lit "points") = true) :
    generateFallbackSummary toLowerCase transcript prompt =
        header prompt ++ keyPointsSection transcript ++ statistics transcript ++ closingNote ∧
      header prompt ++ lit "**Key Points:**\n" <+:
        generateFallbackSummary toLowerCase transcript prompt ∧
      ¬ header prompt ++ lit "**Executive Summary:**\n" <+:
        generateFallbackSummary toLowerCase transcript prompt ∧
      generateFallbackSummary toLowerCase transcript prompt ≠
        header prompt ++ executiveSection transcript ++ statistics transcript ++ closingNote := by
  have hout := generateFallbackSummary_bullet toLowerCase transcript prompt hb
  have hk : lit "**Key Points:**\n" = 42 :: 42 :: 75 :: lit "ey Points:**\n" := by decide
  have hx : lit "**Executive Summary:**\n" = 42 :: 42 :: 69 :: lit "xecutive Summary:**\n" := by
    decide
  have hne : ¬ header prompt ++ lit "**Executive Summary:**\n" <+:
      generateFallbackSummary toLowerCase transcript prompt := by
    rw [hout]
    rintro ⟨u, hu⟩
    simp only [keyPointsSection, hk, hx, List.append_assoc, List.append_cancel_left_eq,
      List.cons_append, List.cons.injEq] at hu
    omega
  refine ⟨hout, ?_, hne, ?_⟩
  · rw [hout]
    exact ⟨keyPoints transcript ++ lit "\n\n" ++ statistics transcript ++ closingNote, by
      simp only [keyPointsSection, List.append_assoc]⟩
  · intro heq
    apply hne
    rw [heq]
    exact ⟨(lit "This meeting transcript contains " ++ numToString (wordCount transcript) ++
        lit " words across " ++ numToString (sentences transcript).length ++
        lit " main points. ") ++
      lit "Key discussion areas include the main topics covered in the conversation.\n\n" ++
      statistics transcript ++ closingNote, by
      simp only [executiveSection, List.append_assoc]⟩

set_option maxRecDepth 100000 in
/-- Witness of C7 at the example transcript and a prompt with both words. -/
theorem bullet_wins_over_executive_witness :
    includes (asciiToLowerCase bothPrompt) (lit "executive") = true ∧
      generateFallbackSummary asciiToLowerCase exampleTranscript bothPrompt =
        header bothPrompt ++ keyPointsSection exampleTranscript ++
          statistics exampleTranscript ++ closingNote :=
  ⟨by decide,
    (bullet_wins_over_executive asciiToLowerCase exampleTranscript bothPrompt (by decide)
      (Or.inl (by decide))).1⟩

/-- C8: the output ends with the statistics block and the closing note, the
reading time written in the block is the ceiling of the reported word count
divided by 200, and a transcript of 450 whitespace-separated words gives the
line "Estimated reading time: 3 minutes". -/
theorem readingTime_is_ceiling (toLowerCase : JSString → JSString)
    (transcript prompt : JSString) :
    statistics transcript ++ closingNote <:+
        generateFallbackSummary toLowerCase transcript prompt ∧
      statistics transcript =
        lit "**Meeting Statistics:**\n" ++
        (lit "• Total words: " ++ numToString (wordCount transcript) ++ lit "\n") ++
        (lit "• Main discussion points: " ++ numToString (sentences transcript).length ++
          lit "\n") ++
        (lit "• Estimated reading time: " ++
          numToString ⌈(wordCount transcript : ℚ) / 200⌉₊ ++ lit " minutes\n\n") ∧
      (tokenCount transcript = 450 →
        lit "• Estimated reading time: " ++
            numToString ⌈(wordCount transcript : ℚ) / 200⌉₊ ++ lit " minutes\n\n" =
          lit "• Estimated reading time: 3 minutes\n\n") := by
  refine ⟨?_, ?_, ?_⟩
  · simp only [generateFallbackSummary]
    split_ifs
    · exact ⟨header prompt ++ keyPointsSection transcript, by simp only [List.append_assoc]⟩
    · exact ⟨header prompt ++ executiveSection transcript, by simp only [List.append_assoc]⟩
    · exact ⟨header prompt, by simp only [List.append_assoc]⟩
  · rw [← readingTime_eq_ceil]
    rfl
  · intro h450
    have hb := tokenCount_le_wordCount transcript
    have h3 : readingTime transcript = 3 := by
      unfold readingTime
      omega
    rw [← readingTime_eq_ceil, h3]
    decide

set_option maxRecDepth 1000000 in
/-- Witness of C8 at a transcript of 450 words separated by single blanks. -/
theorem readingTime_is_ceiling_witness :
    tokenCount words450 = 450 ∧
      lit "• Estimated reading time: " ++
          numToString ⌈(wordCount words450 : ℚ) / 200⌉₊ ++ lit " minutes\n\n" =
        lit "• Estimated reading time: 3 minutes\n\n" :=
  ⟨by decide, (readingTime_is_ceiling asciiToLowerCase words450 plainPrompt).2.2 (by decide)⟩

set_option maxRecDepth 100000 in
/-- C9, as the code has it: for the example transcript and prompt the output
starts with the header quoting the prompt and its statistics block reports
word count 7, sentence count 2 and reading time "1 minutes". -/
theorem example_statistics (toLowerCase : JSString → JSString)
    (h : includes (toLowerCase examplePrompt) (lit "bullet") = true) :
    lit "**Summary based on your request: \"Summarize in bullet points\"**\n\n" <+:
        generateFallbackSummary toLowerCase exampleTranscript examplePrompt ∧
      statistics exampleTranscript =
        lit "**Meeting Statistics:**\n• Total words: 7\n• Main discussion points: 2\n• Estimated reading time: 1 minutes\n\n" ∧
      statistics exampleTranscript ++ closingNote <:+
        generateFallbackSummary toLowerCase exampleTranscript examplePrompt := by
  have hout := generateFallbackSummary_bullet toLowerCase exampleTranscript examplePrompt
    (Or.inl h)
  refine ⟨?_, by decide, ?_⟩
  · rw [hout]
    have hh : header examplePrompt =
        lit "**Summary based on your request: \"Summarize in bullet points\"**\n\n" := by decide
    rw [← hh]
    exact ⟨keyPointsSection exampleTranscript ++ statistics exampleTranscript ++ closingNote, by
      simp only [List.append_assoc]⟩
  · rw [hout]
    exact ⟨header examplePrompt ++ keyPointsSection exampleTranscript, by
      simp only [List.append_assoc]⟩

set_option maxRecDepth 100000 in
/-- Witness of C9 with the ASCII lower-casing. -/
theorem example_statistics_witness :
    includes (asciiToLowerCase examplePrompt) (lit "bullet") = true ∧
      statistics exampleTranscript =
        lit "**Meeting Statistics:**\n• Total words: 7\n• Main discussion points: 2\n• Estimated reading time: 1 minutes\n\n" :=
  ⟨by decide, (example_statistics asciiToLowerCase (by decide)).2.1⟩

set_option maxRecDepth 100000 in
/-- Counterexample to C9 as stated: the example transcript has 7
whitespace-separated pieces, the output reports "Total words: 7" and the text
"Total words: 8" does not occur in it. -/
theorem example_reports_seven_words :
    wordCount exampleTranscript = 7 ∧
      generateFallbackSummary asciiToLowerCase exampleTranscript examplePrompt =
        lit "**Summary based on your request: \"Summarize in bullet points\"**\n\n**Key Points:**\n\n\n**Meeting Statistics:**\n• Total words: 7\n• Main discussion points: 2\n• Estimated reading time: 1 minutes\n\n**Note:** This is a basic summary. For AI-powered summaries, please configure your OpenAI API key in the server environment variables." ∧
      ¬ lit "Total words: 8" <:+:
        generateFallbackSummary asciiToLowerCase exampleTranscript examplePrompt := by
  refine ⟨by decide, by decide, ?_⟩
  rw [← includes_iff]
  decide

set_option maxRecDepth 100000 in
/-- C10, as the code has it: for the example transcript and prompt no sentence
is selected, and the output has the Key Points heading between the header and
the statistics, followed by an empty bullet list. -/
theorem example_empty_key_points_section (toLowerCase : JSString → JSString)
    (h : includes (toLowerCase examplePrompt) (lit "bullet") = true) :
    keyPointItems exampleTranscript = [] ∧
      generateFallbackSummary toLowerCase exampleTranscript examplePrompt =
        header examplePrompt ++ lit "**Key Points:**\n\n\n" ++
          statistics exampleTranscript ++ closingNote ∧
      lit "**Key Points:**" <:+:
        generateFallbackSummary toLowerCase exampleTranscript examplePrompt := by
  have hout := generateFallbackSummary_bullet toLowerCase exampleTranscript examplePrompt
    (Or.inl h)
  have hk : keyPointsSection exampleTranscript = lit "**Key Points:**\n\n\n" := by decide
  rw [hk] at hout
  refine ⟨by decide, hout, ?_⟩
  rw [hout]
  have hs : lit "**Key Points:**\n\n\n" = lit "**Key Points:**" ++ lit "\n\n\n" := by decide
  exact ⟨header examplePrompt, lit "\n\n\n" ++ statistics exampleTranscript ++ closingNote, by
    rw [hs]; simp only [List.append_assoc]⟩

set_option maxRecDepth 100000 in
/-- Witness of C10 with the ASCII lower-casing. -/
theorem example_empty_key_points_section_witness :
    includes (asciiToLowerCase examplePrompt) (lit "bullet") = true ∧
      generateFallbackSummary asciiToLowerCase exampleTranscript examplePrompt =
        header examplePrompt ++ lit "**Key Points:**\n\n\n" ++
          statistics exampleTranscript ++ closingNote :=
  ⟨by decide, (example_empty_key_points_section asciiToLowerCase (by decide)).2.1⟩

set_option maxRecDepth 100000 in
/-- Counterexample to C10 as stated: the Key Points heading occurs in the
output for the example transcript and prompt. -/
theorem example_has_key_points_heading :
    lit "**Key Points:**" <:+:
      generateFallbackSummary asciiToLowerCase exampleTranscript examplePrompt := by
  rw [← includes_iff]
  decide

/-- C11: an upload whose transcript text is empty after trimming, be it the
text of the file payload or, without file, the inline content field (absent
and empty content included), is answered 400 and the Transcript collection is
left as it was. -/
theorem upload_blank_text_rejected (env : StoreEnv) (store : List Transcript)
    (req : UploadRequest)
    (h : (∃ f, req.file = some f ∧ trim f.text = []) ∨
      (req.file = none ∧ ∀ c, req.content = some c → trim c = [])) :
    uploadTranscript env store req = { status := 400, store := store } := by
  rcases h with ⟨f, hf, ht⟩ | ⟨hf, hc⟩
  · simp only [uploadTranscript, hf, ht, if_true]
  · cases hcontent : req.content with
    | none => simp only [uploadTranscript, hf, hcontent, truthy, Bool.false_eq_true, if_false]
    | some c =>
      have ht := hc c hcontent
      by_cases hempty : c = []
      · simp [uploadTranscript, hf, hcontent, truthy, hempty]
      · simp [uploadTranscript, hf, hcontent, truthy, hempty, ht]

/-- Witness of C11 at pasted text of blanks and at a file of a tab and a line
feed. -/
theorem upload_blank_text_rejected_witness :
    uploadTranscript { now := 5, newId := 1 } [] blankUpload = { status := 400, store := [] } ∧
      uploadTranscript { now := 5, newId := 1 } [] blankFileUpload =
        { status := 400, store := [] } :=
  ⟨upload_blank_text_rejected { now := 5, newId := 1 } [] blankUpload
      (Or.inr ⟨rfl, fun c hc => by cases hc; decide⟩),
    upload_blank_text_rejected { now := 5, newId := 1 } [] blankFileUpload
      (Or.inl ⟨_, rfl, by decide⟩)⟩

/-- C12: for an id that the store holds and a non-empty text, the edit
applied at time `t1` and again at time `t2` answers 200 both times; each
application replaces the document found by the same document with
`editedSummary` set to the text and `updatedAt` set to the time of the
application, every other field and every other document being kept, so the
stored `editedSummary` after two applications is the one after the first. -/
theorem updateSummary_idempotent (t1 t2 : Nat) (store : List Summary) (id : Nat)
    (r : Summary) (text : JSString) (hne : text ≠ [])
    (hfound : findById store id = some r) :
    ∃ pre post, store = pre ++ r :: post ∧
      updateSummary t1 store { id := some id, editedSummary := some text } =
        { status := 200,
          summary := some { id := r.id, transcriptId := r.transcriptId,
                            originalTranscript := r.originalTranscript,
                            customPrompt := r.customPrompt, aiSummary := r.aiSummary,
                            editedSummary := some text, createdAt := r.createdAt,
                            updatedAt := t1 },
          store := pre ++ { id := r.id, transcriptId := r.transcriptId,
                            originalTranscript := r.originalTranscript,
                            customPrompt := r.customPrompt, aiSummary := r.aiSummary,
                            editedSummary := some text, createdAt := r.createdAt,
                            updatedAt := t1 } :: post } ∧
      updateSummary t2
          (updateSummary t1 store { id := some id, editedSummary := some text }).store
          { id := some id, editedSummary := some text } =
        { status := 200,
          summary := some { id := r.id, transcriptId := r.transcriptId,
                            originalTranscript := r.originalTranscript,
                            customPrompt := r.customPrompt, aiSummary := r.aiSummary,
                            editedSummary := some text, createdAt := r.createdAt,
                            updatedAt := t2 },
          store := pre ++ { id := r.id, transcriptId := r.transcriptId,
                            originalTranscript := r.originalTranscript,
                            customPrompt := r.customPrompt, aiSummary := r.aiSummary,
                            editedSummary := some text, createdAt := r.createdAt,
                            updatedAt := t2 } :: post } ∧
      (findById
          (updateSummary t2
            (updateSummary t1 store { id := some id, editedSummary := some text }).store
            { id := some id, editedSummary := some text }).store id).map
          (fun s => s.editedSummary) =
        (findById (updateSummary t1 store { id := some id, editedSummary := some text }).store
          id).map (fun s => s.editedSummary) := by
  obtain ⟨hr, pre, post, hs, hpre⟩ := findById_decompose store id r hfound
  have h1 := updateSummary_found t1 pre post r id text hne hr hpre
  have h2 := updateSummary_found t2 pre post
    { r with editedSummary := some text, updatedAt := t1 } id text hne hr hpre
  refine ⟨pre, post, hs, ?_, ?_, ?_⟩
  · rw [hs]
    exact h1
  · rw [hs, h1]
    exact h2
  · rw [hs, h1]
    simp only [h2]
    have f1 := findById_append id { r with editedSummary := some text, updatedAt := t1 } post
      hr pre hpre
    have f2 := findById_append id { r with editedSummary := some text, updatedAt := t2 } post
      hr pre hpre
    rw [f1, f2]
    rfl

set_option maxRecDepth 100000 in
/-- Witness of C12 at the second document of a store of two summaries. -/
theorem updateSummary_idempotent_witness :
    lit "Ships Friday." ≠ [] ∧ findById twoSummaries 2 = twoSummaries[1]? ∧
      (findById
          (updateSummary 40
            (updateSummary 30 twoSummaries
              { id := some 2, editedSummary := some (lit "Ships Friday.") }).store
            { id := some 2, editedSummary := some (lit "Ships Friday.") }).store 2).map
          (fun s => s.editedSummary) =
        (findById (updateSummary 30 twoSummaries
          { id := some 2, editedSummary := some (lit "Ships Friday.") }).store 2).map
          (fun s => s.editedSummary) := by
  refine ⟨by decide, by decide, ?_⟩
  obtain ⟨_, _, _, _, _, h⟩ := updateSummary_idempotent 30 40 twoSummaries 2
    { id := 2, transcriptId := some 7, originalTranscript := lit "We ship on Friday.",
      customPrompt := lit "Summarize", aiSummary := lit "Shipping on Friday.",
      editedSummary := none, createdAt := 20, updatedAt := 20 }
    (lit "Ships Friday.") (by decide) (by decide)
  exact h

/-- C13: from the empty recipient list, after every sequence of operations of
the interface (typing an address, Add, the removal of an address, the reset
after a successful send), every address of the list has the shape
`local@domain.tld` and no address occurs twice; and typing an input whose
trimmed text fails the shape or is already in the list and pressing Add leaves
the list as it was. -/
theorem recipients_wellformed_nodup (actions : List UIAction) (input : JSString) :
    (∀ e ∈ (run actions initialState).recipients, HasShape e) ∧
      (run actions initialState).recipients.Nodup ∧
      ((¬ HasShape (trim input) ∨ trim input ∈ (run actions initialState).recipients) →
        (run (actions ++ [UIAction.setEmailInput input, UIAction.addRecipient])
            initialState).recipients =
          (run actions initialState).recipients) := by
  have hinv := run_preserves actions initialState (by simp [initialState])
    (by simp [initialState])
  refine ⟨fun e he => (emailRegex_test_iff e).mp (hinv.1 e he), hinv.2, ?_⟩
  intro h
  have hrun : run (actions ++ [UIAction.setEmailInput input, UIAction.addRecipient])
      initialState =
      addRecipient { run actions initialState with emailInput := input } := by
    simp only [run, List.foldl_append, List.foldl_cons, List.foldl_nil, step]
  rw [hrun]
  rcases addRecipient_cases { run actions initialState with emailInput := input } with
    hsame | ⟨htest, hnew, _⟩
  · exact hsame
  · rcases h with h | h
    · exact absurd ((emailRegex_test_iff _).mp htest) h
    · exact absurd h hnew

set_option maxRecDepth 100000 in
/-- Witness of C13 at a session that leaves two addresses, with an input that
is already in the list once trimmed. -/
theorem recipients_wellformed_nodup_witness :
    (run sampleSession initialState).recipients =
        [lit "ann@example.com", lit "bob@example.org"] ∧
      trim (lit " ann@example.com ") ∈ (run sampleSession initialState).recipients ∧
      (run (sampleSession ++
            [UIAction.setEmailInput (lit " ann@example.com "), UIAction.addRecipient])
          initialState).recipients =
        (run sampleSession initialState).recipients :=
  ⟨by decide, by decide,
    (recipients_wellformed_nodup sampleSession (lit " ann@example.com ")).2.2
      (Or.inr (by decide))⟩

end MeetingSummarizer
